import Mathlib

/-!
Verification of the Training_log repository's core logic: the progressive
overload utilities (src/sre/src/utils/progressiveOverload.ts), the L-DPS
API client response handling (src/sre/src/api — LDPSClient.getLatestSession),
the workout reducer (src/sre/src/context/workoutReducer.ts), and the
session-clustering algorithm of the L-DPS service.

TypeScript `number` is embedded as `ℚ` (all arithmetic appearing in the
verified code — comparison, addition of 1 and 2.5, max, subtraction,
multiplication — is exact on the values in range). JS `Array.prototype.reduce`
without an initial value throws on an empty array; the functions built on it
are embedded as `Option`-returning, with `none` standing for that thrown
error.
-/

/-- One set of a session, as in `SetData` of src/sre/src/api/types.ts. -/
structure SetData where
  set_number : Nat
  weight_used : ℚ
  reps_completed : ℚ
  duration : Option ℚ := none
  distance : Option ℚ := none
  rpe : Option ℚ := none
  timestamp : String := ""
deriving Repr, DecidableEq

/-- `SessionReference` of src/sre/src/api/types.ts. -/
structure SessionReference where
  user_id : String
  exercise_name : String
  session_timestamp : String
  sets : List SetData
  total_sets : Nat
deriving Repr, DecidableEq

/-- The progression strategy tag of the `Progression` interface
(src/sre/src/utils/progressiveOverload.ts): the string union
`'weight' | 'reps' | 'both'`. -/
inductive Strategy where
  | weight
  | reps
  | both
deriving Repr, DecidableEq

/-- The `Progression` interface of src/sre/src/utils/progressiveOverload.ts. -/
structure Progression where
  suggestedWeight : ℚ
  suggestedReps : ℚ
  lastWeight : ℚ
  lastReps : ℚ
  strategy : Strategy
  message : String
deriving Repr, DecidableEq

/-- `calculateProgression` of src/sre/src/utils/progressiveOverload.ts.
The source computes the heaviest set by
`reference.sets.reduce((max, set) => set.weight_used > max.weight_used ? set : max)`;
JS `reduce` without initial value throws on an empty array (embedded as
`none`) and otherwise folds left starting from the first element. -/
def calculateProgression (reference : SessionReference) : Option Progression :=
  match reference.sets with
  | [] => none
  | s0 :: rest =>
    let heaviestSet :=
      rest.foldl (fun max set =>
        if set.weight_used > max.weight_used then set else max) s0
    let lastWeight := heaviestSet.weight_used
    let lastReps := heaviestSet.reps_completed
    if lastReps < 12 then
      let suggestedReps := lastReps + 1
      some { suggestedWeight := lastWeight
             suggestedReps := suggestedReps
             lastWeight := lastWeight
             lastReps := lastReps
             strategy := Strategy.reps
             message := s!"Add 1 rep ({lastReps} → {suggestedReps})" }
    else
      let suggestedWeight := lastWeight + 2.5
      let suggestedReps := max 8 (lastReps - 2)
      some { suggestedWeight := suggestedWeight
             suggestedReps := suggestedReps
             lastWeight := lastWeight
             lastReps := lastReps
             strategy := Strategy.weight
             message := s!"Add 2.5kg ({lastWeight}kg → {suggestedWeight}kg)" }

/-- `isBeatPreviousSession` of src/sre/src/utils/progressiveOverload.ts.
Returns `none` when `reference.sets` is empty (the `reduce` throws there). -/
def isBeatPreviousSession (currentWeight currentReps : ℚ)
    (reference : SessionReference) : Option Bool :=
  match reference.sets with
  | [] => none
  | s0 :: rest =>
    let heaviestSet :=
      rest.foldl (fun max set =>
        if set.weight_used > max.weight_used then set else max) s0
    some (decide (currentWeight > heaviestSet.weight_used) ||
      (decide (currentWeight = heaviestSet.weight_used) &&
        decide (currentReps > heaviestSet.reps_completed)))

/-- `calculateVolume` of src/sre/src/utils/progressiveOverload.ts:
`reference.sets.reduce((sum, set) => sum + set.weight_used * set.reps_completed, 0)`.
This `reduce` has initial value `0`, so it is total. -/
def calculateVolume (reference : SessionReference) : ℚ :=
  reference.sets.foldl (fun sum set => sum + set.weight_used * set.reps_completed) 0

/-- `findBestSet` of src/sre/src/utils/progressiveOverload.ts.
Returns `none` when `reference.sets` is empty (the `reduce` throws there). -/
def findBestSet (reference : SessionReference) : Option SetData :=
  match reference.sets with
  | [] => none
  | s0 :: rest =>
    some (rest.foldl (fun max set =>
      if set.weight_used > max.weight_used then set else max) s0)

/-- `calculateImprovement` of src/sre/src/utils/progressiveOverload.ts; it
calls `findBestSet`, so it also fails on an empty `sets` array. -/
def calculateImprovement (currentWeight currentReps : ℚ)
    (reference : SessionReference) : Option ℚ :=
  match findBestSet reference with
  | none => none
  | some heaviestSet =>
    let previousBest := heaviestSet.weight_used * heaviestSet.reps_completed
    let currentBest := currentWeight * currentReps
    some (((currentBest - previousBest) / previousBest) * 100)

/-- `Exercise` of src/sre/src/api/types.ts (`sets`/`reps` are
`number | null`). -/
structure Exercise where
  name : String
  sets : Option Nat
  reps : Option Nat
deriving Repr, DecidableEq

/-- `DailyWorkout` of src/sre/src/api/types.ts. -/
structure DailyWorkout where
  workout_id : Nat
  plan_id : String
  day : String
  target_body_parts : List String
  exercises : List Exercise
deriving Repr, DecidableEq

/-- `LogEntryResponse` of src/sre/src/api/types.ts (the `LogEntryCreate`
fields plus the server-assigned id and timestamps). -/
structure LogEntryResponse where
  user_id : String
  exercise_name : String
  set_number : Nat
  weight_used : ℚ
  reps_completed : ℚ
  duration : Option ℚ := none
  distance : Option ℚ := none
  rpe : Option ℚ := none
  log_entry_id : String
  timestamp : String
  created_at : String
deriving Repr, DecidableEq

/-- `WorkoutState` of src/sre/src/context/workoutReducer.ts. -/
structure WorkoutState where
  userId : String
  currentDay : String
  dailyWorkout : Option DailyWorkout
  currentExerciseIndex : Int
  currentExercise : Option String
  referenceData : Option SessionReference
  loggedSets : List LogEntryResponse
  isLoading : Bool
  error : Option String
deriving Repr, DecidableEq

/-- `WorkoutAction` of src/sre/src/context/workoutReducer.ts: the tagged
union of the reducer's action types. -/
inductive WorkoutAction where
  | SET_USER_ID (payload : String)
  | SET_CURRENT_DAY (payload : String)
  | LOAD_WORKOUT_START
  | LOAD_WORKOUT_SUCCESS (payload : DailyWorkout)
  | LOAD_WORKOUT_ERROR (payload : String)
  | SELECT_EXERCISE (exerciseName : String) (index : Int)
  | LOAD_REFERENCE_SUCCESS (payload : Option SessionReference)
  | LOG_SET_SUCCESS (payload : LogEntryResponse)
  | CLEAR_LOGGED_SETS
  | RESET_SESSION
deriving Repr, DecidableEq

/-- `workoutReducer` of src/sre/src/context/workoutReducer.ts. The TS
`default` branch is an exhaustiveness check (`never`), so the Lean match is
total over the action type. -/
def workoutReducer (state : WorkoutState) (action : WorkoutAction) :
    WorkoutState :=
  match action with
  | WorkoutAction.SET_USER_ID payload =>
    { state with userId := payload }
  | WorkoutAction.SET_CURRENT_DAY payload =>
    { state with currentDay := payload }
  | WorkoutAction.LOAD_WORKOUT_START =>
    { state with isLoading := true, error := none }
  | WorkoutAction.LOAD_WORKOUT_SUCCESS payload =>
    { state with isLoading := false, dailyWorkout := some payload,
                 error := none }
  | WorkoutAction.LOAD_WORKOUT_ERROR payload =>
    { state with isLoading := false, error := some payload,
                 dailyWorkout := none }
  | WorkoutAction.SELECT_EXERCISE exerciseName index =>
    { state with currentExercise := some exerciseName,
                 currentExerciseIndex := index,
                 loggedSets := [],
                 referenceData := none }
  | WorkoutAction.LOAD_REFERENCE_SUCCESS payload =>
    { state with referenceData := payload }
  | WorkoutAction.LOG_SET_SUCCESS payload =>
    { state with loggedSets := state.loggedSets ++ [payload] }
  | WorkoutAction.CLEAR_LOGGED_SETS =>
    { state with loggedSets := [] }
  | WorkoutAction.RESET_SESSION =>
    { state with currentExercise := none,
                 currentExerciseIndex := -1,
                 referenceData := none,
                 loggedSets := [],
                 error := none }

/-- The data of a `fetch` response as far as `LDPSClient.getLatestSession`
(src/sre/src/api) inspects it: the HTTP status, the status text, the body
parsed as an `APIError` (`none` when that parse fails), and the body parsed
as a `SessionReference` (used only on OK responses). -/
structure FetchResponse where
  status : Nat
  statusText : String
  errorDetail : Option String
  sessionBody : SessionReference
deriving Repr, DecidableEq

/-- The WHATWG `fetch` `Response.ok` flag: status in the range 200–299. -/
def responseOk (r : FetchResponse) : Bool :=
  200 ≤ r.status && r.status ≤ 299

/-- `LDPSClient.getLatestSession` of src/sre/src/api, response handling:
status 404 returns `null` (first time doing this exercise); any other
non-OK response throws an `Error` whose message is the parsed `APIError`
detail or a fallback built from the status text; an OK response returns the
parsed `SessionReference`. The thrown `Error` is embedded as
`Except.error`. -/
def getLatestSession (resp : FetchResponse) :
    Except String (Option SessionReference) :=
  if resp.status == 404 then
    Except.ok none
  else if !(responseOk resp) then
    Except.error (resp.errorDetail.getD ("L-DPS error: " ++ resp.statusText))
  else
    Except.ok (some resp.sessionBody)

/-- Modelled from the spec: the L-DPS service's `LogEntry` record (spec §3).
The service's Python implementation is missing from the repository sources —
only its README (src/unnamed/part_006) documents the data model and the
clustering algorithm. The timestamp is an instant, embedded as a rational
number of minutes since an arbitrary epoch. -/
structure LogEntry where
  id : String
  user_id : String
  exercise_name : String
  timestamp : ℚ
  set_number : Nat
  weight_used : ℚ
  reps_completed : ℚ
  duration : Option ℚ := none
  distance : Option ℚ := none
  rpe : Option ℚ := none
deriving Repr, DecidableEq

/-- Modelled from the spec: steps 2–4 of the session clustering algorithm
(spec §4.2; README pseudocode in src/unnamed/part_006). Given the last
accumulated entry `prev` and the remaining timestamp-descending entries,
keep accumulating while the gap to the next-older entry is at most
`threshold`, and stop at the first larger gap (session boundary). -/
def clusterFrom (threshold : ℚ) (prev : LogEntry) :
    List LogEntry → List LogEntry
  | [] => []
  | x :: xs =>
    if prev.timestamp - x.timestamp > threshold then []
    else x :: clusterFrom threshold x xs

/-- Modelled from the spec: the session clustering algorithm of the missing
L-DPS implementation (spec §4.2; README pseudocode in
src/unnamed/part_006). Input is the entry list sorted timestamp-descending;
the result is the most recent session: the newest entry together with the
successive entries whose consecutive gaps do not exceed `threshold`. An
empty input yields the empty session (the service reports NotFound there);
the final set-number sort of the returned session is display ordering and
does not change which entries are returned. -/
def latestSession (threshold : ℚ) : List LogEntry → List LogEntry
  | [] => []
  | e :: rest => e :: clusterFrom threshold e rest

/-- A concrete session used by claim examples: sets
`(100,10), (105,8), (100,10)` with ascending set numbers. -/
def exampleSession : SessionReference :=
  { user_id := "user_123"
    exercise_name := "Leg Press"
    session_timestamp := "2025-10-01T10:00:00Z"
    sets := [ { set_number := 1, weight_used := 100, reps_completed := 10 }
            , { set_number := 2, weight_used := 105, reps_completed := 8 }
            , { set_number := 3, weight_used := 100, reps_completed := 10 } ]
    total_sets := 3 }

/-- `b` is the first entry of `l` (in list order) attaining the maximum
`weight_used`: every entry weighs at most `b`, and every entry strictly
before `b` weighs strictly less. -/
def IsFirstHeaviest (l : List SetData) (b : SetData) : Prop :=
  (∀ x ∈ l, x.weight_used ≤ b.weight_used) ∧
  ∃ l1 l2, l = l1 ++ b :: l2 ∧ ∀ x ∈ l1, x.weight_used < b.weight_used

/-- A one-set session whose heaviest set is `(100kg, 10 reps)`. -/
def repsExampleSession : SessionReference :=
  { user_id := "user_123"
    exercise_name := "Leg Press"
    session_timestamp := "2025-10-01T10:00:00Z"
    sets := [ { set_number := 1, weight_used := 100, reps_completed := 10 } ]
    total_sets := 1 }

/-- A one-set session whose heaviest set is `(100kg, 12 reps)`. -/
def weightExampleSession : SessionReference :=
  { user_id := "user_123"
    exercise_name := "Leg Press"
    session_timestamp := "2025-10-01T10:00:00Z"
    sets := [ { set_number := 1, weight_used := 100, reps_completed := 12 } ]
    total_sets := 1 }

/-- A one-set session whose heaviest set is `(105kg, 8 reps)`. -/
def beatExampleSession : SessionReference :=
  { user_id := "user_123"
    exercise_name := "Leg Press"
    session_timestamp := "2025-10-01T10:00:00Z"
    sets := [ { set_number := 1, weight_used := 105, reps_completed := 8 } ]
    total_sets := 1 }

/-- A session reference with an empty `sets` array (never produced by the
service, which answers 404 instead; used to exercise the error branch). -/
def emptyExampleSession : SessionReference :=
  { user_id := "user_123"
    exercise_name := "Leg Press"
    session_timestamp := "2025-10-01T10:00:00Z"
    sets := []
    total_sets := 0 }

/-- The progression computed from `repsExampleSession`: add one rep. -/
def repsExampleProgression : Progression :=
  let lastReps : ℚ := 10
  let suggestedReps : ℚ := lastReps + 1
  { suggestedWeight := 100
    suggestedReps := suggestedReps
    lastWeight := 100
    lastReps := lastReps
    strategy := Strategy.reps
    message := s!"Add 1 rep ({lastReps} → {suggestedReps})" }

-- Helper: the JS-style reduce (strict-improvement fold) picks the first
-- entry of `m :: l` with maximal weight.
lemma foldl_heavier_firstHeaviest :
    ∀ (l : List SetData) (m : SetData),
      IsFirstHeaviest (m :: l)
        (l.foldl (fun max set =>
          if set.weight_used > max.weight_used then set else max) m) := by
  intro l
  induction l with
  | nil =>
    intro m
    refine ⟨?_, [], [], rfl, ?_⟩ <;> simp
  | cons s xs ih =>
    intro m
    simp only [List.foldl_cons]
    by_cases hsm : s.weight_used > m.weight_used
    · rw [if_pos hsm]
      obtain ⟨hmax, l1, l2, hdec, hlt⟩ := ih s
      set b := xs.foldl (fun max set =>
        if set.weight_used > max.weight_used then set else max) s with hbdef
      have hsb : s.weight_used ≤ b.weight_used := hmax s (by simp)
      refine ⟨?_, m :: l1, l2, ?_, ?_⟩
      · intro x hx
        rcases List.mem_cons.mp hx with h | h
        · subst h; exact le_of_lt (lt_of_lt_of_le hsm hsb)
        · exact hmax x h
      · rw [List.cons_append, ← hdec]
      · intro x hx
        rcases List.mem_cons.mp hx with h | h
        · subst h; exact lt_of_lt_of_le hsm hsb
        · exact hlt x h
    · rw [if_neg hsm]
      push_neg at hsm
      obtain ⟨hmax, l1, l2, hdec, hlt⟩ := ih m
      set b := xs.foldl (fun max set =>
        if set.weight_used > max.weight_used then set else max) m with hbdef
      cases l1 with
      | nil =>
        simp only [List.nil_append] at hdec
        have hbm : m = b := by injection hdec
        have hxs : xs = l2 := by injection hdec
        refine ⟨?_, [], s :: l2, ?_, ?_⟩
        · intro x hx
          rcases List.mem_cons.mp hx with h | h
          · subst h; rw [← hbm]
          · rcases List.mem_cons.mp h with h' | h'
            · subst h'; rw [← hbm]; exact hsm
            · exact hmax x (List.mem_cons.mpr (Or.inr (hxs ▸ h')))
        · rw [List.nil_append, ← hbm, hxs]
        · simp
      | cons a l1' =>
        simp only [List.cons_append] at hdec
        have ham : m = a := by injection hdec
        have hxs : xs = l1' ++ b :: l2 := by injection hdec
        have hmb : m.weight_used < b.weight_used := by
          rw [ham]; exact hlt a (by simp)
        refine ⟨?_, m :: s :: l1', l2, ?_, ?_⟩
        · intro x hx
          rcases List.mem_cons.mp hx with h | h
          · subst h; exact le_of_lt hmb
          · rcases List.mem_cons.mp h with h' | h'
            · subst h'; exact le_of_lt (lt_of_le_of_lt hsm hmb)
            · exact hmax x (List.mem_cons.mpr (Or.inr h'))
        · rw [hxs]; simp
        · intro x hx
          rcases List.mem_cons.mp hx with h | h
          · subst h; exact hmb
          · rcases List.mem_cons.mp h with h' | h'
            · subst h'; exact lt_of_le_of_lt hsm hmb
            · exact hlt x (List.mem_cons.mpr (Or.inr h'))

-- Helper: a foldl of pointwise addition equals the mapped sum.
lemma foldl_add_map_sum (f : SetData → ℚ) :
    ∀ (l : List SetData) (a : ℚ),
      l.foldl (fun sum set => sum + f set) a = a + (l.map f).sum := by
  intro l
  induction l with
  | nil => intro a; simp
  | cons s rest ih =>
    intro a
    simp only [List.foldl_cons, List.map_cons, List.sum_cons]
    rw [ih]
    ring

/-- Claim C2: for every non-empty session whose sets are listed in
set-number-ascending order, the heaviest-set selection (`findBestSet`, and
the identical heaviest computation inside `calculateProgression` and
`isBeatPreviousSession`) returns an entry with maximum `weight_used`, and on
ties the first such entry in the session's set-number-ascending (= list)
order. -/
theorem findBestSet_first_heaviest (reference : SessionReference) (b : SetData)
    (hb : findBestSet reference = some b)
    (_hsort : List.Pairwise (fun a c => a.set_number ≤ c.set_number)
      reference.sets) :
    IsFirstHeaviest reference.sets b ∧
    (∀ p, calculateProgression reference = some p →
      p.lastWeight = b.weight_used ∧ p.lastReps = b.reps_completed) ∧
    (∀ cw cr, isBeatPreviousSession cw cr reference =
      some (decide (cw > b.weight_used) ||
        (decide (cw = b.weight_used) && decide (cr > b.reps_completed)))) := by
  rcases hs : reference.sets with _ | ⟨s0, rest⟩
  · rw [findBestSet, hs] at hb
    exact absurd hb (by simp)
  · have hb' : rest.foldl (fun max set =>
        if set.weight_used > max.weight_used then set else max) s0 = b := by
      rw [findBestSet, hs] at hb
      simpa using hb
    have h1 : IsFirstHeaviest (s0 :: rest) b :=
      hb' ▸ foldl_heavier_firstHeaviest rest s0
    refine ⟨hs.symm ▸ h1, ?_, ?_⟩
    · intro p hp
      rw [calculateProgression, hs] at hp
      simp only [hb'] at hp
      by_cases hr : b.reps_completed < 12
      · rw [if_pos hr] at hp
        cases hp
        exact ⟨rfl, rfl⟩
      · rw [if_neg hr] at hp
        cases hp
        exact ⟨rfl, rfl⟩
    · intro cw cr
      rw [isBeatPreviousSession, hs]
      simp only [hb']

/-- Witness for C2 at the concrete example session: the heaviest set is the
second one, `(105, 8)`. -/
theorem findBestSet_first_heaviest_witness :
    findBestSet exampleSession =
      some { set_number := 2, weight_used := 105, reps_completed := 8 } ∧
    IsFirstHeaviest exampleSession.sets
      { set_number := 2, weight_used := 105, reps_completed := 8 } := by
  have hb : findBestSet exampleSession =
      some { set_number := 2, weight_used := 105, reps_completed := 8 } := by
    norm_num [findBestSet, exampleSession, List.foldl]
  have hsort : List.Pairwise (fun a c => a.set_number ≤ c.set_number)
      exampleSession.sets := by
    norm_num [exampleSession, List.pairwise_cons]
  exact ⟨hb, (findBestSet_first_heaviest exampleSession _ hb hsort).1⟩

/-- Claim C3: for every non-empty session whose heaviest set has weight `w`
and reps `r` with `r < 12`, `calculateProgression` returns
`suggestedWeight = w`, `suggestedReps = r + 1` and strategy `reps`. -/
theorem calculateProgression_reps_branch (reference : SessionReference)
    (b : SetData) (hb : findBestSet reference = some b)
    (hr : b.reps_completed < 12) :
    ∃ p, calculateProgression reference = some p ∧
      p.suggestedWeight = b.weight_used ∧
      p.suggestedReps = b.reps_completed + 1 ∧
      p.strategy = Strategy.reps := by
  rcases hs : reference.sets with _ | ⟨s0, rest⟩
  · rw [findBestSet, hs] at hb
    exact absurd hb (by simp)
  · have hb' : rest.foldl (fun max set =>
        if set.weight_used > max.weight_used then set else max) s0 = b := by
      rw [findBestSet, hs] at hb
      simpa using hb
    rw [calculateProgression, hs]
    simp only [hb']
    rw [if_pos hr]
    exact ⟨_, rfl, rfl, rfl, rfl⟩

/-- Witness for C3: a heaviest set of `(100, 10)` yields the suggestion
`(100, 11)` with strategy `reps`. -/
theorem calculateProgression_reps_branch_witness :
    ∃ p, calculateProgression repsExampleSession = some p ∧
      p.suggestedWeight = 100 ∧ p.suggestedReps = 11 ∧
      p.strategy = Strategy.reps := by
  obtain ⟨p, hp, h1, h2, h3⟩ :=
    calculateProgression_reps_branch repsExampleSession
      { set_number := 1, weight_used := 100, reps_completed := 10 }
      (by simp [findBestSet, repsExampleSession])
      (by show (10 : ℚ) < 12; norm_num)
  exact ⟨p, hp, by rw [h1], by rw [h2]; norm_num, h3⟩

/-- Claim C4: for every non-empty session whose heaviest set has weight `w`
and reps `r` with `r ≥ 12`, `calculateProgression` returns
`suggestedWeight = w + 2.5`, `suggestedReps = max 8 (r - 2)` and strategy
`weight`. -/
theorem calculateProgression_weight_branch (reference : SessionReference)
    (b : SetData) (hb : findBestSet reference = some b)
    (hr : 12 ≤ b.reps_completed) :
    ∃ p, calculateProgression reference = some p ∧
      p.suggestedWeight = b.weight_used + 2.5 ∧
      p.suggestedReps = max 8 (b.reps_completed - 2) ∧
      p.strategy = Strategy.weight := by
  rcases hs : reference.sets with _ | ⟨s0, rest⟩
  · rw [findBestSet, hs] at hb
    exact absurd hb (by simp)
  · have hb' : rest.foldl (fun max set =>
        if set.weight_used > max.weight_used then set else max) s0 = b := by
      rw [findBestSet, hs] at hb
      simpa using hb
    rw [calculateProgression, hs]
    simp only [hb']
    rw [if_neg (not_lt.mpr hr)]
    exact ⟨_, rfl, rfl, rfl, rfl⟩

/-- Witness for C4: a heaviest set of `(100, 12)` yields the suggestion
`(102.5, 10)` with strategy `weight`. -/
theorem calculateProgression_weight_branch_witness :
    ∃ p, calculateProgression weightExampleSession = some p ∧
      p.suggestedWeight = 102.5 ∧ p.suggestedReps = 10 ∧
      p.strategy = Strategy.weight := by
  obtain ⟨p, hp, h1, h2, h3⟩ :=
    calculateProgression_weight_branch weightExampleSession
      { set_number := 1, weight_used := 100, reps_completed := 12 }
      (by simp [findBestSet, weightExampleSession])
      (by show (12 : ℚ) ≤ 12; norm_num)
  refine ⟨p, hp, by rw [h1]; norm_num, by rw [h2]; norm_num, h3⟩

/-- Claim C5: for every non-empty session with heaviest set `(hw, hr)`,
`isBeatPreviousSession cw cr session` returns true iff `cw > hw`, or
`cw = hw` and `cr > hr`. -/
theorem isBeatPreviousSession_iff (reference : SessionReference) (b : SetData)
    (hb : findBestSet reference = some b) (cw cr : ℚ) :
    isBeatPreviousSession cw cr reference = some true ↔
      (cw > b.weight_used ∨ (cw = b.weight_used ∧ cr > b.reps_completed)) := by
  rcases hs : reference.sets with _ | ⟨s0, rest⟩
  · rw [findBestSet, hs] at hb
    exact absurd hb (by simp)
  · have hb' : rest.foldl (fun max set =>
        if set.weight_used > max.weight_used then set else max) s0 = b := by
      rw [findBestSet, hs] at hb
      simpa using hb
    rw [isBeatPreviousSession, hs]
    simp only [hb', Option.some_inj, Bool.or_eq_true, Bool.and_eq_true,
      decide_eq_true_eq]

/-- Witness for C5 with heaviest set `(105, 8)`: `(105, 8)` does not beat it,
`(106, 5)` and `(105, 9)` do. -/
theorem isBeatPreviousSession_iff_witness :
    isBeatPreviousSession 106 5 beatExampleSession = some true ∧
    isBeatPreviousSession 105 9 beatExampleSession = some true ∧
    isBeatPreviousSession 105 8 beatExampleSession ≠ some true := by
  have hb : findBestSet beatExampleSession =
      some { set_number := 1, weight_used := 105, reps_completed := 8 } := by
    simp [findBestSet, beatExampleSession]
  refine ⟨?_, ?_, ?_⟩
  · exact (isBeatPreviousSession_iff beatExampleSession _ hb 106 5).mpr
      (Or.inl (by norm_num))
  · exact (isBeatPreviousSession_iff beatExampleSession _ hb 105 9).mpr
      (Or.inr ⟨by norm_num, by norm_num⟩)
  · intro h
    rcases (isBeatPreviousSession_iff beatExampleSession _ hb 105 8).mp h with
      h' | ⟨h1, h2⟩
    · exact absurd h' (by norm_num)
    · exact absurd h2 (by norm_num)

/-- Claim C8: the suggestion produced by `calculateProgression` beats the
session it was computed from: in the reps branch the weight is equal and the
reps strictly larger, in the weight branch the weight is strictly larger. -/
theorem progression_beats_previous (reference : SessionReference)
    (p : Progression) (hp : calculateProgression reference = some p) :
    isBeatPreviousSession p.suggestedWeight p.suggestedReps reference =
      some true := by
  rcases hs : reference.sets with _ | ⟨s0, rest⟩
  · rw [calculateProgression, hs] at hp
    exact absurd hp (by simp)
  · rw [calculateProgression, hs] at hp
    rw [isBeatPreviousSession, hs]
    dsimp only at hp ⊢
    by_cases hr : (rest.foldl (fun max set =>
        if set.weight_used > max.weight_used then set else max)
        s0).reps_completed < 12
    · rw [if_pos hr] at hp
      cases hp
      simp only [Option.some_inj, Bool.or_eq_true, Bool.and_eq_true,
        decide_eq_true_eq]
      exact Or.inr ⟨trivial, lt_add_one _⟩
    · rw [if_neg hr] at hp
      cases hp
      simp only [Option.some_inj, Bool.or_eq_true, Bool.and_eq_true,
        decide_eq_true_eq]
      exact Or.inl (by norm_num)

/-- Witness for C8: the suggestion for a `(100, 10)` session, namely
`(100, 11)`, beats that session. -/
theorem progression_beats_previous_witness :
    isBeatPreviousSession repsExampleProgression.suggestedWeight
      repsExampleProgression.suggestedReps repsExampleSession = some true := by
  have hp : calculateProgression repsExampleSession =
      some repsExampleProgression := by
    simp only [calculateProgression, repsExampleSession, List.foldl]
    rw [if_pos (show (10 : ℚ) < 12 by norm_num)]
    rfl
  exact progression_beats_previous repsExampleSession repsExampleProgression hp

/-- Claim C9: `calculateProgression`, `findBestSet`, `isBeatPreviousSession`
and `calculateImprovement` all fail (the JS `reduce` over an empty array with
no initial value throws, embedded as `none`) on a session whose `sets` array
is empty, so non-emptiness is a necessary precondition for all four. -/
theorem empty_sets_all_fail (reference : SessionReference) (cw cr : ℚ)
    (h : reference.sets = []) :
    calculateProgression reference = none ∧
    findBestSet reference = none ∧
    isBeatPreviousSession cw cr reference = none ∧
    calculateImprovement cw cr reference = none := by
  refine ⟨?_, ?_, ?_, ?_⟩
  · rw [calculateProgression, h]
  · rw [findBestSet, h]
  · rw [isBeatPreviousSession, h]
  · rw [calculateImprovement, findBestSet, h]

/-- Witness for C9 at a concrete session with an empty `sets` array. -/
theorem empty_sets_all_fail_witness :
    calculateProgression emptyExampleSession = none ∧
    findBestSet emptyExampleSession = none ∧
    isBeatPreviousSession 100 10 emptyExampleSession = none ∧
    calculateImprovement 100 10 emptyExampleSession = none :=
  empty_sets_all_fail emptyExampleSession 100 10 rfl

/-- The timestamp-descending entry list of the spec's session-boundary
example: entries at 10:05, 10:00, 07:05 and 07:00 (in minutes). -/
def exampleEntries : List LogEntry :=
  [ { id := "e1", user_id := "user_123", exercise_name := "Leg Press",
      timestamp := 605, set_number := 2, weight_used := 100,
      reps_completed := 10 }
  , { id := "e2", user_id := "user_123", exercise_name := "Leg Press",
      timestamp := 600, set_number := 1, weight_used := 100,
      reps_completed := 10 }
  , { id := "e3", user_id := "user_123", exercise_name := "Leg Press",
      timestamp := 425, set_number := 2, weight_used := 95,
      reps_completed := 10 }
  , { id := "e4", user_id := "user_123", exercise_name := "Leg Press",
      timestamp := 420, set_number := 1, weight_used := 95,
      reps_completed := 10 } ]

-- Helper: the accumulated cluster is an initial segment of the input.
lemma clusterFrom_initial (threshold : ℚ) :
    ∀ (l : List LogEntry) (prev : LogEntry),
      ∃ rest, l = clusterFrom threshold prev l ++ rest := by
  intro l
  induction l with
  | nil => intro prev; exact ⟨[], rfl⟩
  | cons x xs ih =>
    intro prev
    rw [clusterFrom]
    by_cases hgap : prev.timestamp - x.timestamp > threshold
    · rw [if_pos hgap]
      exact ⟨x :: xs, rfl⟩
    · rw [if_neg hgap]
      obtain ⟨r, hr⟩ := ih x
      exact ⟨r, by rw [List.cons_append, ← hr]⟩

-- Helper: every consecutive gap inside the accumulated cluster, including
-- the gap from `prev` to its first entry, is at most the threshold.
lemma clusterFrom_chain (threshold : ℚ) :
    ∀ (l : List LogEntry) (prev : LogEntry),
      List.Chain' (fun a b => a.timestamp - b.timestamp ≤ threshold)
        (prev :: clusterFrom threshold prev l) := by
  intro l
  induction l with
  | nil => intro prev; simp [clusterFrom]
  | cons x xs ih =>
    intro prev
    rw [clusterFrom]
    by_cases hgap : prev.timestamp - x.timestamp > threshold
    · rw [if_pos hgap]; simp
    · rw [if_neg hgap]
      exact List.chain'_cons.mpr ⟨not_lt.mp hgap, ih x⟩

-- Helper: maximality — any initial segment of the remaining input whose
-- gaps (including the one from `prev`) stay within the threshold is an
-- initial segment of the accumulated cluster.
lemma clusterFrom_maximal (threshold : ℚ) :
    ∀ (p l : List LogEntry) (prev : LogEntry),
      (∃ rest, l = p ++ rest) →
      List.Chain' (fun a b => a.timestamp - b.timestamp ≤ threshold)
        (prev :: p) →
      ∃ rest, clusterFrom threshold prev l = p ++ rest := by
  intro p
  induction p with
  | nil =>
    intro l prev _ _
    exact ⟨clusterFrom threshold prev l, rfl⟩
  | cons b q ih =>
    intro l prev hpre hchain
    obtain ⟨r, hr⟩ := hpre
    subst hr
    rw [List.cons_append, clusterFrom]
    obtain ⟨hpb, hq⟩ := List.chain'_cons.mp hchain
    rw [if_neg (not_lt.mpr hpb)]
    obtain ⟨r2, hr2⟩ := ih (q ++ r) b ⟨r, rfl⟩ hq
    exact ⟨r2, by rw [hr2, List.cons_append]⟩

/-- Claim C1: for a non-empty timestamp-descending entry list, the
latest-session clustering returns exactly the maximal newest-first initial
segment in which each consecutive gap is at most the threshold: the result
is a non-empty initial segment of the input, all of its consecutive gaps
are within the threshold, and every initial segment with that property is
an initial segment of the result (so accumulation stops at the first gap
exceeding the threshold and all older entries are excluded). -/
theorem latestSession_maximal_cluster (threshold : ℚ) (l : List LogEntry)
    (hne : l ≠ []) :
    latestSession threshold l ≠ [] ∧
    (∃ rest, l = latestSession threshold l ++ rest) ∧
    List.Chain' (fun a b => a.timestamp - b.timestamp ≤ threshold)
      (latestSession threshold l) ∧
    (∀ p, (∃ rest, l = p ++ rest) →
      List.Chain' (fun a b => a.timestamp - b.timestamp ≤ threshold) p →
      ∃ rest, latestSession threshold l = p ++ rest) := by
  cases l with
  | nil => exact absurd rfl hne
  | cons e tl =>
    refine ⟨by simp [latestSession], ?_, ?_, ?_⟩
    · obtain ⟨r, hr⟩ := clusterFrom_initial threshold tl e
      exact ⟨r, by rw [latestSession, List.cons_append, ← hr]⟩
    · rw [latestSession]
      exact clusterFrom_chain threshold tl e
    · intro p hpre hchain
      cases p with
      | nil => exact ⟨latestSession threshold (e :: tl), rfl⟩
      | cons b q =>
        obtain ⟨r, hr⟩ := hpre
        rw [List.cons_append] at hr
        have hbe : e = b := by injection hr
        have htl : tl = q ++ r := by injection hr
        subst hbe
        have hq : List.Chain' (fun a b => a.timestamp - b.timestamp ≤ threshold)
            (e :: q) := hchain
        obtain ⟨r2, hr2⟩ :=
          clusterFrom_maximal threshold q tl e ⟨r, htl⟩ hq
        exact ⟨r2, by rw [latestSession, hr2, List.cons_append]⟩

/-- Witness for C1 at the spec's example (2-hour threshold, entries at
10:05, 10:00, 07:05, 07:00): the returned session is exactly the first two
entries; the 07:xx pair is excluded. -/
theorem latestSession_maximal_cluster_witness :
    latestSession 120 exampleEntries = List.take 2 exampleEntries ∧
    latestSession 120 exampleEntries ≠ [] := by
  constructor
  · norm_num [latestSession, clusterFrom, exampleEntries, List.take]
  · exact (latestSession_maximal_cluster 120 exampleEntries
      (by simp [exampleEntries])).1

/-- Claim C7: when the service answers HTTP 404 (no prior entries),
`getLatestSession` returns `null` as a normal result rather than throwing;
it throws exactly for the other non-OK responses. -/
theorem getLatestSession_notFound_is_normal (resp : FetchResponse) :
    (resp.status = 404 → getLatestSession resp = Except.ok none) ∧
    ((∃ msg, getLatestSession resp = Except.error msg) ↔
      (resp.status ≠ 404 ∧ responseOk resp = false)) := by
  constructor
  · intro h404
    rw [getLatestSession, if_pos (by simp [h404])]
  · by_cases h404 : resp.status = 404
    · rw [getLatestSession, if_pos (by simp [h404])]
      simp [h404]
    · rw [getLatestSession, if_neg (by simp [h404])]
      by_cases hok : responseOk resp
      · rw [if_neg (by simp [hok])]
        simp [h404, hok]
      · rw [if_pos (by simp [hok])]
        simp only [Bool.not_eq_true] at hok
        simp [h404, hok]

/-- Witness for C7: a 404 response yields `Except.ok none`, and a 500
response (status text "Internal Server Error", unparseable body) yields an
error. -/
theorem getLatestSession_notFound_is_normal_witness :
    getLatestSession
      { status := 404, statusText := "Not Found", errorDetail := none,
        sessionBody := emptyExampleSession } = Except.ok none ∧
    ∃ msg, getLatestSession
      { status := 500, statusText := "Internal Server Error",
        errorDetail := none, sessionBody := emptyExampleSession } =
        Except.error msg := by
  constructor
  · exact (getLatestSession_notFound_is_normal _).1 rfl
  · exact (getLatestSession_notFound_is_normal _).2.mpr (by decide)

/-- Claim C10: `workoutReducer` applied to `LOG_SET_SUCCESS` appends the
payload at the end of `loggedSets` (existing entries unchanged and in
order) and leaves every other field of the state unchanged. -/
theorem workoutReducer_log_set_success (state : WorkoutState)
    (payload : LogEntryResponse) :
    (workoutReducer state (WorkoutAction.LOG_SET_SUCCESS payload)).loggedSets
        = state.loggedSets ++ [payload] ∧
    workoutReducer state (WorkoutAction.LOG_SET_SUCCESS payload)
        = { state with loggedSets := state.loggedSets ++ [payload] } :=
  ⟨rfl, rfl⟩

/-- Claim C6: for every session, `calculateVolume` returns the sum over all
of its entries of `weight_used * reps_completed`; in particular the three
sets `(100,10), (105,8), (100,10)` give a volume of `2840`. -/
theorem calculateVolume_eq_sum :
    (∀ reference : SessionReference,
      calculateVolume reference =
        (reference.sets.map (fun s => s.weight_used * s.reps_completed)).sum) ∧
    calculateVolume exampleSession = 2840 := by
  constructor
  · intro reference
    unfold calculateVolume
    rw [foldl_add_map_sum]
    ring
  · show List.foldl _ 0 _ = 2840
    norm_num [List.foldl]
